import Mathlib

/-!
Shallow embedding of giantswarm/badnodedetector (Go) in Lean 4.

Source files embedded:
  - pkg/detector/detector.go : health evaluator, tick counter, candidate
    selector filters and the orchestrating DetectBadNodes call.
  - pkg/lock/timelock.go     : TTL-based pacing lock over a shared
    namespace object.

Modelling conventions:
  - Go `map[string]string` values are association lists; lookup returns the
    first binding.  Node annotation maps carry an explicit `isNil` flag
    because Go distinguishes a nil map (reads yield the zero value, writes
    panic) from an empty one; a write into a nil map is modelled as the
    `panicNilMap` error outcome.
  - Wall-clock instants and durations are integers (seconds).  `time.Since t`
    is `now - t` with `now` passed explicitly.
  - The `time.UnixDate` timestamp codec is modelled by an injective
    format/parse pair over a tagged decimal string; `strconv.Atoi` is
    modelled by `atoi` (optional sign, all-digit body, no overflow).
  - Go float64 percentages are modelled at rational precision; `math.Round`
    is round-half-away-from-zero, which agrees with the float computation on
    every value the specification fixes.
-/

/-- Association-list lookup for a Go string map: first binding wins. -/
def lookupStr : List (String × String) → String → Option String
  | [], _ => none
  | p :: rest, k => if p.1 = k then some p.2 else lookupStr rest k

/-- Association-list update for a Go string map: replace the first binding
of the key, or append a fresh binding. -/
def setStr : List (String × String) → String → String → List (String × String)
  | [], k, v => [(k, v)]
  | p :: rest, k, v => if p.1 = k then (k, v) :: rest else p :: setStr rest k v

/-- Association-list deletion for a Go string map (Go `delete`). -/
def delStr : List (String × String) → String → List (String × String)
  | [], _ => []
  | p :: rest, k => if p.1 = k then delStr rest k else p :: delStr rest k

/-- A Go `map[string]string` value, remembering whether it is the nil map:
reads from a nil map give "absent", writes into it panic. -/
structure GoStrMap where
  isNil : Bool
  entries : List (String × String)
deriving DecidableEq, Repr

/-- Map read (`v, ok := m[k]`): nil maps read as empty. -/
def GoStrMap.find (m : GoStrMap) (k : String) : Option String :=
  lookupStr m.entries k

/-- Map write (`m[k] = v`): `none` models the Go runtime panic on
assignment into a nil map. -/
def GoStrMap.set (m : GoStrMap) (k v : String) : Option GoStrMap :=
  if m.isNil then none else some ⟨false, setStr m.entries k v⟩

/-- Digit-string accumulator behind `atoi`; fails on any non-digit. -/
def digitsValAux : List Char → Nat → Option Nat
  | [], acc => some acc
  | c :: cs, acc =>
    if c.isDigit then digitsValAux cs (acc * 10 + (c.toNat - 48)) else none

/-- Go `strconv.Atoi`: optional single sign then one or more digits;
anything else is a parse error (modelled as `none`).  Overflow is not
modelled (mathematical integers). -/
def atoi (s : String) : Option Int :=
  match s.data with
  | [] => none
  | '-' :: cs =>
    match cs with
    | [] => none
    | _ => (digitsValAux cs 0).map (fun n => -(n : Int))
  | '+' :: cs =>
    match cs with
    | [] => none
    | _ => (digitsValAux cs 0).map (fun n => (n : Int))
  | cs => (digitsValAux cs 0).map (fun n => (n : Int))

/-- The `time.UnixDate` rendering of an absolute instant, modelled as an
injective tagged decimal string. -/
def formatUnixDate (t : Int) : String := "UnixDate:" ++ toString t

/-- The `time.Parse (time.UnixDate)` inverse: accepts exactly the strings
produced by `formatUnixDate`, fails on everything else. -/
def parseUnixDate (s : String) : Option Int :=
  if s.take 9 = "UnixDate:" then atoi (s.drop 9) else none

/-- One entry of `corev1.Node.Status.Conditions`: a typed, timestamped
boolean condition. -/
structure NodeCondition where
  condType : String
  status : String
  lastHeartbeatTime : Int
deriving DecidableEq, Repr

/-- A `corev1.Node` restricted to the fields the detector reads: name,
labels, the string annotation map (nil-able: written by the detector) and
the status conditions. -/
structure Node where
  name : String
  labels : List (String × String)
  anns : GoStrMap
  conditions : List NodeCondition
deriving DecidableEq, Repr

/-- `nodeNotReadyDuration = time.Second * 30` (in seconds). -/
def nodeNotReadyDuration : Int := 30

/-- `annotationNodeNotReadyTick` from detector.go. -/
def annNodeNotReadyTick : String := "giantswarm.io/node-not-ready-tick"

/-- `labelNodeRole` from detector.go. -/
def labelNodeRole : String := "role"

/-- `labelNodeRoleMaster` from detector.go. -/
def labelNodeRoleMaster : String := "master"

/-- `labelNodeRoleWorker` from detector.go. -/
def labelNodeRoleWorker : String := "worker"

/-- detector.go `nodeNotReady`: scan the status conditions for a `Ready`
condition whose status is not `"True"` and whose heartbeat timestamp is at
least 30 seconds in the past. -/
def nodeNotReady (now : Int) (n : Node) : Bool :=
  n.conditions.any fun c =>
    decide (c.condType = "Ready") && !(decide (c.status = "True")) &&
      decide (nodeNotReadyDuration ≤ now - c.lastHeartbeatTime)

/-- detector.go `nodeNotReadyTickCount`: read the persisted tick count
(absent map or key reads as 0; a present but unparsable value reads as 0
and marks the node for normalisation), then bump it up when the node is not
ready, bleed it down towards 0 otherwise. -/
def nodeNotReadyTickCount (now : Int) (n : Node) : Int × Bool :=
  let read : Int × Bool :=
    match n.anns.find annNodeNotReadyTick with
    | none => (0, false)
    | some tick =>
      match atoi tick with
      | none => (0, true)
      | some v => (v, false)
  if nodeNotReady now n then (read.1 + 1, true)
  else if 0 < read.1 then (read.1 - 1, true)
  else read

/-- Whether a node carries the privileged role label
(`n.Labels[labelNodeRole] == labelNodeRoleMaster`; Go map reads default to
the empty string). -/
def isMaster (n : Node) : Bool :=
  decide ((lookupStr n.labels labelNodeRole).getD "" = labelNodeRoleMaster)

/-- Loop body of detector.go `removeMultipleMasterNodes`, with the
`foundMasterNode` flag made explicit. -/
def removeMasters (found : Bool) : List Node → List Node
  | [] => []
  | n :: rest =>
    if isMaster n then
      if !found then n :: removeMasters true rest else removeMasters found rest
    else n :: removeMasters found rest

/-- detector.go `removeMultipleMasterNodes`: keep the first master node,
drop every later master, pass all other nodes through in order. -/
def removeMultipleMasterNodes (nodeList : List Node) : List Node :=
  removeMasters false nodeList

/-- Go `math.Round` at rational precision: round half away from zero. -/
def mathRound (q : ℚ) : Int :=
  if 0 ≤ q then ⌊q + 1 / 2⌋ else ⌈q - 1 / 2⌉

/-- detector.go `maximumNodeTermination`: round the fleet fraction and
floor the result at one node per pass. -/
def maximumNodeTermination (nodeCount : Int) (maxNodeTerminationPercentage : ℚ) : Int :=
  let limit := mathRound ((nodeCount : ℚ) * maxNodeTerminationPercentage)
  if limit < 1 then 1 else limit

/-- The truncation step of DetectBadNodes
(`if len(badNodes) > maxNodeTermination { badNodes = badNodes[:maxNodeTermination] }`). -/
def capNodes (maxT : Int) (l : List Node) : List Node :=
  if maxT < (l.length : Int) then l.take maxT.toNat else l

/-- Error outcomes observable from the embedded operations: the recoverable
`alreadyExists` lock signal, a timestamp parse failure surfaced by
`isLocked`, and the Go runtime panic on writing into a nil map. -/
inductive GoError
  | alreadyExists
  | parseError
  | panicNilMap
deriving DecidableEq, Repr

deriving instance DecidableEq for Except

/-- The shared coordination object (a `corev1.Namespace`), reduced to its
string annotation map.  The lock code reads and writes this map; it is
modelled as a writable association list. -/
structure ClusterNamespace where
  anns : List (String × String)
deriving DecidableEq, Repr

/-- timelock.go `timeLockName`. -/
def timeLockName : String := "timelock.giantswarm.io/until"

/-- timelock.go `lockName`: the per-component annotation key of the lock. -/
def lockName (component : String) : String := component ++ "." ++ timeLockName

/-- The TimeLock handle, reduced to the TTL it was configured with (logger,
client and cluster coordinates address the external store). -/
structure TimeLock where
  ttl : Int
deriving DecidableEq, Repr

/-- timelock.go `TimeLock.isLocked`: read the component's lock annotation;
absent means unlocked, a value that fails to parse is a fatal error, and a
parsed expiry locks exactly when it is strictly in the future. -/
def TimeLock.isLocked (now : Int) (ns : ClusterNamespace) (component : String) :
    Except GoError Bool :=
  match lookupStr ns.anns (lockName component) with
  | none => .ok false
  | some timeStamp =>
    match parseUnixDate timeStamp with
    | none => .error .parseError
    | some ts => .ok (decide (now < ts))

/-- timelock.go `TimeLock.createLock`: write `now + ttl` under the
component's lock key and persist the namespace. -/
def TimeLock.createLock (t : TimeLock) (now : Int) (ns : ClusterNamespace)
    (component : String) : ClusterNamespace :=
  ⟨setStr ns.anns (lockName component) (formatUnixDate (now + t.ttl))⟩

/-- timelock.go `TimeLock.Lock`: fail with `alreadyExists` when `isLocked`
holds, propagate `isLocked` errors, otherwise create the lock. -/
def TimeLock.Lock (t : TimeLock) (now : Int) (ns : ClusterNamespace)
    (component : String) : Except GoError ClusterNamespace :=
  match TimeLock.isLocked now ns component with
  | .error e => .error e
  | .ok true => .error .alreadyExists
  | .ok false => .ok (TimeLock.createLock t now ns component)

/-- timelock.go `TimeLock.ClearLock`: when the component's lock key is
present, delete the key named by the bare component string (sic: not the
lock key that was checked) and persist; otherwise leave the namespace
untouched. -/
def TimeLock.ClearLock (ns : ClusterNamespace) (component : String) : ClusterNamespace :=
  if (lookupStr ns.anns (lockName component)).isSome then
    ⟨delStr ns.anns component⟩
  else ns

/-- The detector configuration after `NewDetector` defaulting (detector.go
`Detector` struct), reduced to the fields `DetectBadNodes` reads. -/
structure Detector where
  lockName : String
  maxNodeTerminationPercentage : ℚ
  notReadyTickThreshold : Int
  pauseBetweenTermination : Int
deriving DecidableEq, Repr

/-- The per-node loop of `DetectBadNodes`: compute the tick count, collect
nodes at or above the threshold, and for each changed counter write it back
into the node's annotation map — which panics (`panicNilMap`) when that map
is nil.  Returns the collected bad nodes in list order. -/
def detectLoop (now threshold : Int) : List Node → Except GoError (List Node)
  | [] => .ok []
  | n :: rest =>
    let r := nodeNotReadyTickCount now n
    if r.2 && n.anns.isNil then .error .panicNilMap
    else
      match detectLoop now threshold rest with
      | .error e => .error e
      | .ok bads => .ok (if threshold ≤ r.1 then n :: bads else bads)

/-- detector.go `DetectBadNodes`: run the tick loop over the listed nodes,
drop all but the first master from the threshold-crossers, cap by the fleet
percentage, then try to take the pacing lock — `alreadyExists` is absorbed
(the list is still returned), any other lock error aborts the call. -/
def Detector.DetectBadNodes (d : Detector) (now : Int) (nodes : List Node)
    (ns : ClusterNamespace) : Except GoError (List Node) :=
  match detectLoop now d.notReadyTickThreshold nodes with
  | .error e => .error e
  | .ok badNodes =>
    let filtered := removeMultipleMasterNodes badNodes
    let maxT := maximumNodeTermination (nodes.length : Int) d.maxNodeTerminationPercentage
    let capped := capNodes maxT filtered
    match TimeLock.Lock ⟨d.pauseBetweenTermination⟩ now ns d.lockName with
    | .error .alreadyExists => .ok capped
    | .error e => .error e
    | .ok _ => .ok capped

/-- Spec-side restatement of the single-privileged-role cap, following the
specification's words: keep everything up to and including the first
privileged-role node, then drop every further privileged-role node. -/
def keepFirstMasterSpec (l : List Node) : List Node :=
  let pre := l.takeWhile (fun n => !isMaster n)
  match l.dropWhile (fun n => !isMaster n) with
  | [] => pre
  | m :: tail => pre ++ m :: tail.filter (fun n => !isMaster n)

/-- Spec-side health predicate of claim C1: unhealthy iff the readiness
condition is non-ready and 30s old, or a resource-exhaustion condition (the
`DiskFull` custom condition named in the changelog) is asserted and 30s
old. -/
def isUnhealthyClaim (now : Int) (n : Node) : Bool :=
  (n.conditions.any fun c =>
    decide (c.condType = "Ready") && !(decide (c.status = "True")) &&
      decide (nodeNotReadyDuration ≤ now - c.lastHeartbeatTime)) ||
  (n.conditions.any fun c =>
    decide (c.condType = "DiskFull") && decide (c.status = "True") &&
      decide (nodeNotReadyDuration ≤ now - c.lastHeartbeatTime))

/-- Spec-side read phase of the tick update: the persisted counter value
together with the changed flag raised when a present value fails to
parse. -/
def readTickClaim (n : Node) : Int × Bool :=
  match n.anns.find annNodeNotReadyTick with
  | none => (0, false)
  | some s =>
    match atoi s with
    | none => (0, true)
    | some v => (v, false)

/-- Spec-side tick update of claim C2: increment when unhealthy, decrement
a positive counter when healthy, otherwise pass the read result through. -/
def updateTickClaim (now : Int) (n : Node) : Int × Bool :=
  if nodeNotReady now n then ((readTickClaim n).1 + 1, true)
  else if 0 < (readTickClaim n).1 then ((readTickClaim n).1 - 1, true)
  else readTickClaim n

/-- A node carrying only a role label (as in the repository's own tests). -/
def mkRoleNode (nm role : String) : Node :=
  ⟨nm, [(labelNodeRole, role)], ⟨false, []⟩, []⟩

/-- A fresh heartbeat of a ready node (age 100s at the sample instant 100;
the status being `True` makes the age irrelevant). -/
def condReadyTrue : NodeCondition := ⟨"Ready", "True", 0⟩

/-- A readiness condition that has reported non-ready for 100s at the
sample instant 100. -/
def condReadyFalseOld : NodeCondition := ⟨"Ready", "False", 0⟩

/-- A DiskFull condition asserted for 100s at the sample instant 100. -/
def condDiskFullOld : NodeCondition := ⟨"DiskFull", "True", 0⟩

/-- Sample: healthy node without a tick attribute. -/
def nodeHealthyNoAnn : Node := ⟨"n1", [], ⟨false, []⟩, [condReadyTrue]⟩

/-- Sample: unhealthy node with persisted tick count 5. -/
def nodeTick5Unhealthy : Node :=
  ⟨"n2", [], ⟨false, [(annNodeNotReadyTick, "5")]⟩, [condReadyFalseOld]⟩

/-- Sample: healthy node with persisted tick count 5. -/
def nodeTick5Healthy : Node :=
  ⟨"n3", [], ⟨false, [(annNodeNotReadyTick, "5")]⟩, [condReadyTrue]⟩

/-- Sample: unhealthy node with an unparsable tick attribute. -/
def nodeGarbageUnhealthy : Node :=
  ⟨"n4", [], ⟨false, [(annNodeNotReadyTick, "garbage")]⟩, [condReadyFalseOld]⟩

/-- Sample: healthy node with an unparsable tick attribute. -/
def nodeGarbageHealthy : Node :=
  ⟨"n5", [], ⟨false, [(annNodeNotReadyTick, "garbage")]⟩, [condReadyTrue]⟩

/-- Sample: healthy node with a parsable negative tick attribute. -/
def nodeNegTick : Node :=
  ⟨"n6", [], ⟨false, [(annNodeNotReadyTick, "-5")]⟩, [condReadyTrue]⟩

/-- Sample: node that is ready but has had its DiskFull condition asserted
for 100s. -/
def nodeReadyDiskFull : Node :=
  ⟨"n7", [], ⟨false, []⟩, [condReadyTrue, condDiskFullOld]⟩

/-- Sample: not-ready node whose annotation map is the nil map. -/
def nodeNilAnnNotReady : Node := ⟨"n8", [], ⟨true, []⟩, [condReadyFalseOld]⟩

/-- Sample: healthy node with persisted tick count 3. -/
def nodeTick3 : Node :=
  ⟨"n9", [], ⟨false, [(annNodeNotReadyTick, "3")]⟩, [condReadyTrue]⟩

/-- With the first master already taken, the loop of
`removeMultipleMasterNodes` is a plain filter dropping masters. -/
theorem removeMasters_true_eq (l : List Node) :
    removeMasters true l = l.filter (fun n => !isMaster n) := by
  induction l with
  | nil => rfl
  | cons n rest ih =>
    by_cases h : isMaster n <;>
      simp [removeMasters, h, ih, List.filter_cons]

/-- The source filter agrees with the spec-side decomposition at the first
master. -/
theorem removeMasters_false_eq (l : List Node) :
    removeMasters false l = keepFirstMasterSpec l := by
  induction l with
  | nil => rfl
  | cons n rest ih =>
    by_cases h : isMaster n
    · simp [removeMasters, keepFirstMasterSpec, h, removeMasters_true_eq,
        List.takeWhile_cons, List.dropWhile_cons]
    · simp only [removeMasters, keepFirstMasterSpec, h, List.takeWhile_cons,
        List.dropWhile_cons, Bool.not_false, if_neg, if_true] at ih ⊢
      simp [h, ih, keepFirstMasterSpec]
      cases hd : rest.dropWhile (fun n => !isMaster n) <;>
        simp [hd] at ih ⊢

/-- A list with at most one master is left unchanged by the master
filter. -/
theorem removeMasters_false_of_le_one (l : List Node)
    (h : l.countP (fun n => isMaster n) ≤ 1) : removeMasters false l = l := by
  induction l with
  | nil => rfl
  | cons n rest ih =>
    rw [List.countP_cons] at h
    by_cases hm : isMaster n
    · simp [hm] at h
      simp [removeMasters, hm, removeMasters_true_eq]
      intro a ha
      exact h a ha
    · simp [hm] at h
      simp [removeMasters, hm, ih h]

/-- The percentage cap leaves a list within the limit unchanged. -/
theorem capNodes_of_le (maxT : Int) (l : List Node) (h : (l.length : Int) ≤ maxT) :
    capNodes maxT l = l := by
  simp [capNodes]
  intro hc
  omega

/-- C1 counterexample: a node whose readiness reports ready but whose
DiskFull (resource-exhaustion) condition has been asserted for 100s is
unhealthy under the claimed predicate, yet the source health evaluator
judges it healthy — the source checks only the readiness condition. -/
theorem nodeNotReady_misses_diskFull_cx :
    isUnhealthyClaim 100 nodeReadyDiskFull = true ∧
    nodeNotReady 100 nodeReadyDiskFull = false := by
  constructor <;> decide

/-- C1 (amended): the health evaluator reports unhealthy if and only if
some readiness condition is in a non-ready state and its timestamp is at
least 30 seconds old; resource-exhaustion conditions are not consulted, and
conditions absent from the set have no effect. -/
theorem nodeNotReady_ready_only_iff (now : Int) (n : Node) :
    nodeNotReady now n = true ↔
      ∃ c ∈ n.conditions, c.condType = "Ready" ∧ c.status ≠ "True" ∧
        nodeNotReadyDuration ≤ now - c.lastHeartbeatTime := by
  simp [nodeNotReady, List.any_eq_true, Bool.and_eq_true, decide_eq_true_eq,
    and_assoc]

/-- C2: the tick-counter update equals the claimed algorithm — read the
persisted counter (absent reads 0; unparsable reads 0 and raises the
changed flag), then increment on unhealthy, decrement a positive counter on
healthy, and otherwise pass the read result through — and it realises the
five values the claim fixes: (0,false), (6,true), (4,true), (1,true) and
(0,true). -/
theorem nodeNotReadyTickCount_spec :
    (∀ (now : Int) (n : Node), nodeNotReadyTickCount now n = updateTickClaim now n) ∧
    nodeNotReadyTickCount 100 nodeHealthyNoAnn = (0, false) ∧
    nodeNotReadyTickCount 100 nodeTick5Unhealthy = (6, true) ∧
    nodeNotReadyTickCount 100 nodeTick5Healthy = (4, true) ∧
    nodeNotReadyTickCount 100 nodeGarbageUnhealthy = (1, true) ∧
    nodeNotReadyTickCount 100 nodeGarbageHealthy = (0, true) := by
  refine ⟨fun now n => ?_, by decide, by decide, by decide, by decide, by decide⟩
  unfold nodeNotReadyTickCount updateTickClaim readTickClaim
  rfl

/-- C3 counterexample: with a stored expiry that does not parse, lock
acquisition neither succeeds nor fails with AlreadyLocked — it aborts with
a parse error, against the claim that every non-AlreadyLocked case writes
and succeeds. -/
theorem timeLock_lock_unparsable_cx :
    TimeLock.Lock ⟨600⟩ 100 ⟨[(lockName "op", "garbage")]⟩ "op" =
      Except.error GoError.parseError ∧
    Except.error GoError.parseError ≠
      (Except.error GoError.alreadyExists : Except GoError ClusterNamespace) := by
  constructor <;> decide

/-- C3 (amended): acquisition fails with AlreadyLocked iff the owner's
stored expiry exists, parses, and is strictly after now; when the expiry is
absent or parses to an instant not after now it writes owner to now + ttl
and succeeds, overwriting any previous expiry; a stored expiry that fails
to parse aborts the acquisition with a parse error instead. -/
theorem timeLock_lock_spec (t : TimeLock) (now : Int) (ns : ClusterNamespace)
    (component : String) :
    (TimeLock.Lock t now ns component = Except.error GoError.alreadyExists ↔
      ∃ s ts, lookupStr ns.anns (lockName component) = some s ∧
        parseUnixDate s = some ts ∧ now < ts) ∧
    ((∀ s, lookupStr ns.anns (lockName component) = some s →
        ∃ ts, parseUnixDate s = some ts ∧ ts ≤ now) →
      TimeLock.Lock t now ns component =
        Except.ok ⟨setStr ns.anns (lockName component)
          (formatUnixDate (now + t.ttl))⟩) ∧
    (∀ s, lookupStr ns.anns (lockName component) = some s →
      parseUnixDate s = none →
      TimeLock.Lock t now ns component = Except.error GoError.parseError) := by
  refine ⟨?_, ?_, ?_⟩
  · unfold TimeLock.Lock TimeLock.isLocked TimeLock.createLock
    cases hf : lookupStr ns.anns (lockName component) with
    | none => simp
    | some s =>
      cases hp : parseUnixDate s with
      | none => simp [hp]
      | some ts =>
        by_cases hlt : now < ts <;> simp [hp, hlt]
  · intro h
    unfold TimeLock.Lock TimeLock.isLocked TimeLock.createLock
    cases hf : lookupStr ns.anns (lockName component) with
    | none => simp
    | some s =>
      obtain ⟨ts, hp, hle⟩ := h s hf
      simp [hp, show ¬ (now < ts) by omega]
  · intro s hf hp
    unfold TimeLock.Lock TimeLock.isLocked
    simp [hf, hp]

/-- Acquisition against an empty record succeeds and stores now + ttl under
the component's lock key (concrete run of `timeLock_lock_spec`). -/
theorem timeLock_lock_spec_witness :
    TimeLock.Lock ⟨600⟩ 100 ⟨[]⟩ "op" =
      Except.ok ⟨[(lockName "op", formatUnixDate 700)]⟩ :=
  (timeLock_lock_spec ⟨600⟩ 100 ⟨[]⟩ "op").2.1 (by
    intro s hs
    simp [lookupStr] at hs)

/-- C4: releasing a held lock does not remove the lock key.  With the lock
key present, ClearLock deletes the key named by the bare component string
and leaves the record unchanged — the lock annotation it just checked
survives, contradicting both the claim and the code's own comment. -/
theorem clearLock_leaves_lock_key :
    TimeLock.ClearLock ⟨[(lockName "op", formatUnixDate 700)]⟩ "op" =
      ⟨[(lockName "op", formatUnixDate 700)]⟩ ∧
    lookupStr (TimeLock.ClearLock ⟨[(lockName "op", formatUnixDate 700)]⟩ "op").anns
        (lockName "op") = some (formatUnixDate 700) := by
  constructor <;> decide

/-- C5: the single-privileged-role filter equals its spec-side
decomposition (first master kept, later masters dropped, everything else
passed through in order); it maps [worker1, master1, master2, master3] to
[worker1, master1]; and it leaves any list with at most one master
unchanged. -/
theorem removeMultipleMasterNodes_spec :
    (∀ l, removeMultipleMasterNodes l = keepFirstMasterSpec l) ∧
    removeMultipleMasterNodes
        [mkRoleNode "worker1" labelNodeRoleWorker, mkRoleNode "master1" labelNodeRoleMaster,
         mkRoleNode "master2" labelNodeRoleMaster, mkRoleNode "master3" labelNodeRoleMaster] =
      [mkRoleNode "worker1" labelNodeRoleWorker, mkRoleNode "master1" labelNodeRoleMaster] ∧
    (∀ l, l.countP (fun n => isMaster n) ≤ 1 → removeMultipleMasterNodes l = l) :=
  ⟨fun l => removeMasters_false_eq l, by decide,
   fun l h => removeMasters_false_of_le_one l h⟩

/-- A one-worker list passes the master filter unchanged (concrete run of
`removeMultipleMasterNodes_spec`). -/
theorem removeMultipleMasterNodes_spec_witness :
    removeMultipleMasterNodes [mkRoleNode "worker1" labelNodeRoleWorker] =
      [mkRoleNode "worker1" labelNodeRoleWorker] :=
  removeMultipleMasterNodes_spec.2.2 [mkRoleNode "worker1" labelNodeRoleWorker] (by decide)

/-- C6: the termination limit is max(1, round(n * p)) — stated for every
node count, hence in particular for every positive one — and takes the five
values the claim fixes. -/
theorem maximumNodeTermination_spec :
    (∀ (n : Int) (p : ℚ),
      maximumNodeTermination n p = max 1 (mathRound ((n : ℚ) * p))) ∧
    maximumNodeTermination 10 (1 / 2) = 5 ∧
    maximumNodeTermination 10 (1 / 100) = 1 ∧
    maximumNodeTermination 3 (1 / 10) = 1 ∧
    maximumNodeTermination 10 (23 / 100) = 2 ∧
    maximumNodeTermination 1000 (1 / 4) = 250 := by
  refine ⟨fun n p => ?_, ?_, ?_, ?_, ?_, ?_⟩
  · unfold maximumNodeTermination
    dsimp only
    split <;> omega
  all_goals norm_num [maximumNodeTermination, mathRound]

/-- C7: once the per-node loop has succeeded, an AlreadyLocked outcome of
the pacing-lock acquisition still yields the capped candidate list with no
error, while any other lock error aborts the call with that error (and no
list). -/
theorem detectBadNodes_lock_handling (d : Detector) (now : Int)
    (nodes : List Node) (ns : ClusterNamespace) (bads : List Node)
    (hloop : detectLoop now d.notReadyTickThreshold nodes = Except.ok bads) :
    (TimeLock.Lock ⟨d.pauseBetweenTermination⟩ now ns d.lockName =
        Except.error GoError.alreadyExists →
      d.DetectBadNodes now nodes ns =
        Except.ok (capNodes
          (maximumNodeTermination (nodes.length : Int) d.maxNodeTerminationPercentage)
          (removeMultipleMasterNodes bads))) ∧
    (∀ e, e ≠ GoError.alreadyExists →
      TimeLock.Lock ⟨d.pauseBetweenTermination⟩ now ns d.lockName = Except.error e →
      d.DetectBadNodes now nodes ns = Except.error e) := by
  constructor
  · intro hl
    simp [Detector.DetectBadNodes, hloop, hl]
  · intro e he hl
    cases e <;> simp [Detector.DetectBadNodes, hloop, hl] <;> simp at he

/-- A call that finds the pacing lock held still returns its (empty)
candidate list with no error (concrete run of
`detectBadNodes_lock_handling`). -/
theorem detectBadNodes_lock_handling_witness :
    Detector.DetectBadNodes ⟨"op", 1 / 2, 6, 600⟩ 100 []
      ⟨[(lockName "op", formatUnixDate 700)]⟩ = Except.ok [] := by
  have h := (detectBadNodes_lock_handling ⟨"op", 1 / 2, 6, 600⟩ 100 []
    ⟨[(lockName "op", formatUnixDate 700)]⟩ [] rfl).1 (by decide)
  simpa [capNodes, removeMultipleMasterNodes, removeMasters] using h

/-- C8 counterexample: a healthy node whose persisted counter holds the
parsable value -5 makes the tick update return -5 — below 0 — with no
normalising write-back. -/
theorem tick_count_negative_cx :
    nodeNotReadyTickCount 100 nodeNegTick = (-5, false) ∧
    ¬ (0 ≤ (nodeNotReadyTickCount 100 nodeNegTick).1) := by
  constructor <;> decide

/-- C8 (amended): whenever every parsable persisted counter value is
non-negative — in particular when the attribute is absent or unparsable —
the counter returned by the tick update is at least 0. -/
theorem tick_count_nonneg (now : Int) (n : Node)
    (h : ∀ s v, n.anns.find annNodeNotReadyTick = some s → atoi s = some v → 0 ≤ v) :
    0 ≤ (nodeNotReadyTickCount now n).1 := by
  unfold nodeNotReadyTickCount
  cases hf : n.anns.find annNodeNotReadyTick with
  | none => dsimp only; split <;> simp
  | some s =>
    cases ha : atoi s with
    | none => simp only [ha]; split <;> simp
    | some v =>
      have hv := h s v hf ha
      simp only [ha]
      split
      · simp
        omega
      · split <;> simp <;> omega

/-- The tick update keeps a node with persisted count 3 at a non-negative
count (concrete run of `tick_count_nonneg`). -/
theorem tick_count_nonneg_witness :
    0 ≤ (nodeNotReadyTickCount 100 nodeTick3).1 :=
  tick_count_nonneg 100 nodeTick3 (by
    intro s v hs hv
    simp [nodeTick3, GoStrMap.find, lookupStr, annNodeNotReadyTick] at hs
    subst hs
    simp [atoi, digitsValAux] at hv
    omega)

/-- C9: on a list that is already filtered — at most one master and no more
entries than the computed limit — re-running the master filter and the
percentage truncation returns the list unchanged. -/
theorem selector_filters_idempotent (l : List Node) (n : Int) (p : ℚ)
    (h1 : l.countP (fun x => isMaster x) ≤ 1)
    (h2 : (l.length : Int) ≤ maximumNodeTermination n p) :
    capNodes (maximumNodeTermination n p) (removeMultipleMasterNodes l) = l := by
  rw [removeMultipleMasterNodes, removeMasters_false_of_le_one l h1,
    capNodes_of_le _ _ h2]

/-- One worker out of ten nodes at a 50 percent cap is already filtered and
survives re-filtering unchanged (concrete run of
`selector_filters_idempotent`). -/
theorem selector_filters_idempotent_witness :
    capNodes (maximumNodeTermination 10 (1 / 2))
      (removeMultipleMasterNodes [mkRoleNode "worker1" labelNodeRoleWorker]) =
      [mkRoleNode "worker1" labelNodeRoleWorker] :=
  selector_filters_idempotent [mkRoleNode "worker1" labelNodeRoleWorker] 10 (1 / 2)
    (by decide) (by norm_num [maximumNodeTermination, mathRound])

/-- C10: DetectBadNodes is not total — a listed node with a nil annotation
map that is evaluated as unhealthy gets its changed counter assigned into
the nil map, and the call panics instead of returning a list or performing
the normalising write. -/
theorem detectBadNodes_nil_ann_panics :
    Detector.DetectBadNodes ⟨"op", 1 / 2, 6, 600⟩ 100 [nodeNilAnnNotReady] ⟨[]⟩ =
      Except.error GoError.panicNilMap := by
  decide
